import Mathlib

/-!
Shallow embedding of the wordlegram bot core (`src/main.py`).

The embedding covers the parts the specification talks about:

* the `Score` model class (peewee model with composite primary key
  `(game, run, player, chat)`) becomes the structure `Score` together with a
  store modelled as a `List Score`; `Score.create` under the composite
  primary key becomes `record`, which refuses an insert when a row with the
  same key is already present (SQLite raises `peewee.IntegrityError`, the
  source catches it).  The informational `time` column takes no part in the
  key nor in any claim and is left out of the structure.
* the regular expressions of `VALID_GAMES` become explicit character-list
  matchers (`gameRule`), each of the three patterns being
  `^<name> (?P<run>\d+) (?P<score>X|\d+)/6<bonus>\n` where only `Wordle`
  carries the optional bonus marker `\*?`.  The greedy `\d+` groups are
  followed by non-digit literals and the `X` alternative cannot be the start
  of a digit run, so deterministic maximal munch is equivalent to the
  backtracking semantics of `re.match`.  `\d` is modelled as the ASCII
  digits.
* score normalisation `max(0, min(6, 7 - int(tok)))` with
  `except ValueError: score = 0` becomes `normScore` over `pyInt`.
* `select_reaction` draws `random.choice` from the comprehension
  `[r for lo, hi, r in REACTIONS if lo <= score and hi >= score]`; the
  random draw is modelled by an arbitrary index `pick`, so every actual
  draw of `random.choice` is `select_reaction pick` for some `pick`.
* the `echo` message handler becomes `echo`, a function from the store and
  the message to the new store and an optional reply text.  `str.format`
  on the reaction templates (each placeholder occurring with distinct
  names) is modelled by a chain of `String.replace`.
* the aggregation query of the `score` command,
  `SELECT player, SUM(score) WHERE chat = ? GROUP BY player`, becomes
  `totalsByChat`, a single streaming pass that accumulates one total per
  player as a grouping engine does.
-/

/-- The persisted `Score` row of `src/main.py` (lines 88-98): `game` a short
string, `run`/`player`/`score`/`chat` integers.  The composite primary key of
`Score.Meta` is `(game, run, player, chat)`. -/
structure Score where
  game : String
  run : Nat
  player : Int
  score : Int
  chat : Int
deriving DecidableEq, Repr

/-- Does a stored row carry exactly the composite key `(game, run, player,
chat)`?  This is the uniqueness predicate the SQLite composite primary key
enforces. -/
def keyMatches (game : String) (run : Nat) (player chat : Int) (s : Score) : Bool :=
  s.game == game && s.run == run && s.player == player && s.chat == chat

/-- `Score.create` under the composite primary key: the insert succeeds
(`true`) and appends the row exactly when no row with the same
`(game, run, player, chat)` key exists; otherwise SQLite rejects the insert
(`peewee.IntegrityError`) and the store is unchanged (`false`). -/
def record (store : List Score) (game : String) (run : Nat) (player chat : Int)
    (sc : Int) : List Score × Bool :=
  if store.any (keyMatches game run player chat) then (store, false)
  else (store ++ [{ game := game, run := run, player := player, score := sc, chat := chat }],
    true)

/-- One reaction template of the `REACTIONS` table (lines 36-82): inclusive
lower and upper score bounds and the reply text. -/
structure Reaction where
  lo : Int
  hi : Int
  text : String
deriving DecidableEq, Repr

/-- The `REACTIONS` table of `src/main.py` lines 36-82, verbatim (the Python
source writes literal backslashes before `!` and `.` to pre-escape
MarkdownV2). -/
def REACTIONS : List Reaction :=
  [⟨6, 6, "Are you cheating, {player}? That\x27s worth {score} points for {game} {run}\\!"⟩,
   ⟨6, 6, "Clearly, {player} is clairvoyant\\. They get {score} whole points for {game} {run}\\!"⟩,
   ⟨4, 5, "Great work, {player}\\! You get {score} points for {game} {run}\\."⟩,
   ⟨4, 5, "Wow, {player} is unstoppable\\. They get {score} points for {game} {run}\\!"⟩,
   ⟨2, 5, "For {game} {run}, we\x27re awarding {score} points to {player}\\!"⟩,
   ⟨2, 5, "Well done, {player}\\. That\x27s worth {score} points for {game} {run}\\."⟩,
   ⟨0, 1, "Not your best work, {player}\\. Here\x27s {score} point for {game} {run}\\."⟩,
   ⟨0, 2, "Better luck next time, {player}\\. You get {score} points for {game} {run}\\."⟩,
   ⟨0, 100000, "Awarding {score} points to {player} for {game} {run}\\."⟩]

/-- The list comprehension inside `select_reaction` (line 103): all templates
whose inclusive range `[lo, hi]` contains the score. -/
def candidates (s : Int) : List Reaction :=
  REACTIONS.filter (fun r => decide (r.lo ≤ s) && decide (r.hi ≥ s))

/-- `select_reaction` (lines 101-104).  `random.choice` is modelled by an
arbitrary draw `pick`; the result is `none` exactly when the candidate list
is empty (where `random.choice` would raise `IndexError`). -/
def select_reaction (pick : Nat) (s : Int) : Option String :=
  let cs := (candidates s).map Reaction.text
  cs.get? (pick % cs.length)

/-- Value of a decimal digit string, as Python `int` computes it on a string
of ASCII digits (leading zeros are ignored: `int("007") = 7`). -/
def digitsToNat (cs : List Char) : Nat :=
  cs.foldl (fun acc c => acc * 10 + (c.toNat - '0'.toNat)) 0

/-- Python `int(tok)` on a regex `score` capture: the capture is either a
nonempty digit string (which parses to its value) or the miss marker `X`
(where `int` raises `ValueError`, modelled as `none`). -/
def pyInt (cs : List Char) : Option Int :=
  if !cs.isEmpty && cs.all Char.isDigit then some (digitsToNat cs : Int) else none

/-- Lines 134-137 of `echo`: `score = max(0, min(6, 7 - int(tok)))`, and on
`ValueError` (the `X` token) `score = 0`. -/
def normScore (tok : List Char) : Int :=
  match pyInt tok with
  | some n => max 0 (min 6 (7 - n))
  | none => 0

/-- Consume an exact literal character sequence from the front of the input,
returning the rest; `none` when the input does not start with the literal. -/
def dropLit : List Char → List Char → Option (List Char)
  | [], cs => some cs
  | _ :: _, [] => none
  | l :: ls, c :: cs => if c = l then dropLit ls cs else none

/-- The `(?P<run>\d+)` group: one or more ASCII digits, maximal munch,
returning the digits and the rest of the input. -/
def takeDigits (cs : List Char) : Option (List Char × List Char) :=
  let ds := cs.takeWhile Char.isDigit
  if ds.isEmpty then none else some (ds, cs.drop ds.length)

/-- The `(?P<score>X|\d+)` group: the literal miss marker `X`, or one or
more digits. -/
def takeTok (cs : List Char) : Option (List Char × List Char) :=
  match cs with
  | 'X' :: rest => some ([ 'X' ], rest)
  | _ => takeDigits cs

/-- The optional bonus marker `\*?` of the `Wordle` pattern: consume a `*`
when present.  (The regex is greedy, and when taking the `*` fails the
subsequent `\n`, not taking it fails as well, so unconditional consumption
is equivalent.) -/
def dropStar (cs : List Char) : List Char :=
  match cs with
  | '*' :: rest => rest
  | _ => cs

/-- The named captures of a successful recognition: the `run` digit string
and the raw `score` token. -/
structure RawMatch where
  run : List Char
  score : List Char
deriving DecidableEq, Repr

/-- The common tail ` (?P<run>\d+) (?P<score>X|\d+)/6<bonus>\n` of the three
patterns, after the game-name literal and its following space; `allowBonus`
is true only for `Wordle`, whose pattern carries `\*?` before the newline. -/
def matchTail (allowBonus : Bool) (cs : List Char) : Option RawMatch :=
  (takeDigits cs).bind fun rd =>
    (dropLit [ ' ' ] rd.2).bind fun cs2 =>
      (takeTok cs2).bind fun tk =>
        (dropLit [ '/', '6' ] tk.2).bind fun cs4 =>
          (dropLit [ '\n' ] (if allowBonus then dropStar cs4 else cs4)).map fun _ =>
            ⟨rd.1, tk.1⟩

/-- One registry entry of `VALID_GAMES`: the game name (the pattern starts
with `^<name> `) and whether the pattern allows the bonus marker `\*?`. -/
structure GameRule where
  name : String
  allowBonus : Bool
deriving DecidableEq, Repr

/-- The ordered registry `VALID_GAMES` (lines 29-33): patterns
`^Wordle (?P<run>\d+) (?P<score>X|\d+)/6\*?\n`,
`^Woordle (?P<run>\d+) (?P<score>X|\d+)/6\n` and
`^Woordle6 (?P<run>\d+) (?P<score>X|\d+)/6\n`. -/
def VALID_GAMES : List GameRule :=
  [⟨"Wordle", true⟩, ⟨"Woordle", false⟩, ⟨"Woordle6", false⟩]

/-- `re.match` of one game pattern against the message text: the anchored
literal `<name> ` followed by the common tail; trailing text after the
newline is unconstrained, as under `re.match`. -/
def gameRule (g : GameRule) (text : List Char) : Option RawMatch :=
  match dropLit (g.name.data ++ [ ' ' ]) text with
  | none => none
  | some cs => matchTail g.allowBonus cs

/-- The `for name, pattern in VALID_GAMES` loop head of `echo` with its
`break`: try the rules in registry order and keep the first match. -/
def matchFirst : List GameRule → List Char → Option (String × RawMatch)
  | [], _ => none
  | g :: gs, text =>
    match gameRule g text with
    | some m => some (g.name, m)
    | none => matchFirst gs text

/-- The reply of the `except peewee.IntegrityError` branch (lines 160-165):
`"Sorry, but you've already submitted a score for {game} {run}\."`
formatted. -/
def duplicateReply (game : String) (run : Nat) : String :=
  "Sorry, but you\x27ve already submitted a score for " ++ game ++ " " ++
    toString run ++ "\\."

/-- `reaction.format(player=..., score=..., game=..., run=...)` of lines
152-159: each placeholder name occurs under a distinct brace pattern, so
`str.format` is a textual substitution. -/
def fmt (t player : String) (sc : Int) (game : String) (run : Nat) : String :=
  (((t.replace "{player}" player).replace "{score}" (toString sc)).replace
    "{game}" game).replace "{run}" (toString run)

/-- The fields of the inbound Telegram update that `echo` reads:
`update.message.text`, `update.message.from_user.id`,
`update.message.from_user.first_name` and `update.message.chat.id`. -/
structure Msg where
  text : String
  fromUserId : Int
  fromUserFirstName : String
  chatId : Int

/-- The `echo` message handler (lines 131-167): try the rules in order; on
the first match normalise the score, parse the run, attempt the insert, and
reply with a formatted reaction on success or with the fixed duplicate
message on `IntegrityError`; with no match do nothing.  The result is the
store after the call and the reply text sent, `none` when no reply is
sent. -/
def echo (pick : Nat) (store : List Score) (msg : Msg) : List Score × Option String :=
  match matchFirst VALID_GAMES msg.text.data with
  | none => (store, none)
  | some (name, m) =>
    let sc := normScore m.score
    let run := digitsToNat m.run
    match record store name run msg.fromUserId msg.chatId sc with
    | (store2, true) =>
      (store2, (select_reaction pick sc).map
        (fun t => fmt t msg.fromUserFirstName sc name run))
    | (store2, false) => (store2, some (duplicateReply name run))

/-- One grouping step of the SQL aggregation: add `sc` to the accumulated
total of player `p`, creating the group when it is new. -/
def addScore : List (Int × Int) → Int → Int → List (Int × Int)
  | [], p, sc => [(p, sc)]
  | (q, t) :: rest, p, sc =>
    if q == p then (q, t + sc) :: rest else (q, t) :: addScore rest p sc

/-- The aggregation query of the `score` command (lines 108-112):
`SELECT player, SUM(score) ... WHERE chat = ? GROUP BY player`, as a
streaming pass over the stored rows that keeps one running total per player
of the requested chat. -/
def totalsByChat (store : List Score) (chat : Int) : List (Int × Int) :=
  store.foldl (fun acc s => if s.chat == chat then addScore acc s.player s.score else acc) []

/-- Modelled from the spec's words, for comparison with `totalsByChat`:
"the sum of all stored scores per player within the given chat". -/
def specChatTotal (store : List Score) (chat p : Int) : Int :=
  ((store.filter (fun s => s.chat == chat && s.player == p)).map Score.score).sum

/-- Auxiliary reading of a grouping accumulator: the sum of the totals held
for player `q` (a single entry once the keys are distinct). -/
def getT (acc : List (Int × Int)) (q : Int) : Int :=
  ((acc.filter (fun e => e.1 == q)).map Prod.snd).sum

/-! ## Basic facts about the store -/

theorem keyMatches_self (g : String) (r : Nat) (p c sc : Int) :
    keyMatches g r p c { game := g, run := r, player := p, score := sc, chat := c } = true := by
  simp [keyMatches]

/-- C1: for every game, run, player and chat, submitting the same
`(game, run, player, chat)` tuple twice yields exactly one stored
`Submission`: the first insert is created, the second is rejected as a
duplicate leaving the store unchanged, and the single stored row still
carries the first submission's score. -/
theorem record_idempotent_unique (store : List Score) (g : String) (r : Nat)
    (p c sc1 sc2 : Int) (h : store.any (keyMatches g r p c) = false) :
    (record store g r p c sc1).2 = true ∧
    (record (record store g r p c sc1).1 g r p c sc2).2 = false ∧
    (record (record store g r p c sc1).1 g r p c sc2).1 = (record store g r p c sc1).1 ∧
    (record store g r p c sc1).1.filter (keyMatches g r p c) =
      [{ game := g, run := r, player := p, score := sc1, chat := c }] := by
  have hcond : ¬ store.any (keyMatches g r p c) = true := by simp [h]
  have h1 : record store g r p c sc1 =
      (store ++ [({ game := g, run := r, player := p, score := sc1, chat := c } : Score)],
        true) := by
    unfold record
    rw [if_neg hcond]
  have h2 : (store ++ [({ game := g, run := r, player := p, score := sc1, chat := c } :
      Score)]).any (keyMatches g r p c) = true := by
    rw [List.any_append]
    simp [keyMatches_self]
  have h3 : store.filter (keyMatches g r p c) = [] := by
    rw [List.filter_eq_nil_iff]
    intro a ha hk
    have hx : store.any (keyMatches g r p c) = true := List.any_eq_true.mpr ⟨a, ha, hk⟩
    rw [h] at hx
    exact Bool.false_ne_true hx
  refine ⟨by rw [h1], ?_, ?_, ?_⟩
  · rw [h1]
    unfold record
    rw [if_pos h2]
  · rw [h1]
    unfold record
    rw [if_pos h2]
  · rw [h1, List.filter_append, h3]
    simp [keyMatches_self]

/-- C1 witness: on the empty store, submitting `("Wordle", 512, 1, 2)` with
score 4 and then again with score 1 leaves exactly one row, with score 4. -/
theorem record_idempotent_unique_witness :
    ([] : List Score).any (keyMatches "Wordle" 512 1 2) = false ∧
    (record [] "Wordle" 512 1 2 4).2 = true ∧
    (record (record [] "Wordle" 512 1 2 4).1 "Wordle" 512 1 2 1).2 = false ∧
    (record [] "Wordle" 512 1 2 4).1.filter (keyMatches "Wordle" 512 1 2) =
      [{ game := "Wordle", run := 512, player := 1, score := 4, chat := 2 }] := by
  have h := record_idempotent_unique [] "Wordle" 512 1 2 4 1 (by decide)
  exact ⟨by decide, h.1, h.2.1, h.2.2.2⟩

/-! ## The score normalizer -/

/-- C2: for a raw score token that is a single digit `a` in 1..6 the
normalized score is `7 - a`, for the miss marker `X` it is 0, and the
handler stores exactly that normalized score (at `a = 3` the stored row
carries score 4). -/
theorem normScore_linear :
    (∀ a : Nat, 1 ≤ a → a ≤ 6 → normScore [Char.ofNat (48 + a)] = 7 - (a : Int)) ∧
    normScore [ 'X' ] = 0 ∧
    (echo 0 [] ⟨"Wordle 512 3/6\n", 7, "Alice", 9⟩).1 =
      [{ game := "Wordle", run := 512, player := 7, score := 4, chat := 9 }] := by
  refine ⟨?_, by decide, by rfl⟩
  intro a h1 h6
  interval_cases a <;> decide

/-- C2 witness at `a = 3`: the normalized score is `7 - 3 = 4`. -/
theorem normScore_linear_witness :
    1 ≤ 3 ∧ 3 ≤ 6 ∧ normScore [Char.ofNat (48 + 3)] = 7 - (3 : Int) :=
  ⟨by decide, by decide, normScore_linear.1 3 (by decide) (by decide)⟩

/-- C3 counterexample: the message `"Wordle 512 0/6\n"` is recognized and
its raw score token is `"0"` — neither the miss marker `X` nor a digit in
1..6 — yet the normalized score is 6, not 0 (`max(0, min(6, 7 - 0)) = 6`),
and the stored row carries score 6. -/
theorem normScore_zero_token_cex :
    matchFirst VALID_GAMES ("Wordle 512 0/6\n" : String).data =
      some ("Wordle", ⟨[ '5', '1', '2' ], [ '0' ]⟩) ∧
    normScore [ '0' ] = 6 ∧
    (echo 0 [] ⟨"Wordle 512 0/6\n", 7, "Alice", 9⟩).1 =
      [{ game := "Wordle", run := 512, player := 7, score := 6, chat := 9 }] := by
  exact ⟨by decide, by decide, by rfl⟩

/-- C3 (amended): for a recognized raw score token, a parse failure (only
the miss marker `X` fails) and any parsed value of at least 7 normalize to
score 0; a digit token is "out of range" only by its parsed value, and a
token parsing to 0 clamps to score 6 instead (see the counterexample). -/
theorem normScore_out_of_range (tok : List Char) :
    (pyInt tok = none → normScore tok = 0) ∧
    (∀ n : Int, pyInt tok = some n → 7 ≤ n → normScore tok = 0) := by
  constructor
  · intro h
    simp [normScore, h]
  · intro n h hn
    simp only [normScore, h]
    omega

/-- C3 witness: the miss marker fails to parse and normalizes to 0, and the
token `"7"` parses to 7 and normalizes to 0. -/
theorem normScore_out_of_range_witness :
    pyInt [ 'X' ] = none ∧ normScore [ 'X' ] = 0 ∧
    pyInt [ '7' ] = some 7 ∧ normScore [ '7' ] = 0 :=
  ⟨by decide, (normScore_out_of_range [ 'X' ]).1 (by decide), by decide,
    (normScore_out_of_range [ '7' ]).2 7 (by decide) (by decide)⟩

/-! ## Recognition of the three game patterns -/

/-- C4 counterexample: `"Woordle6 10 6/6*\n"` is indeed not matched by the
`Woordle` rule, but — contrary to the claim — it does not resolve against
the `Woordle6` rule either: only the `Wordle` pattern carries the optional
bonus marker `\*?`, so the message matches no rule at all and the handler
stores nothing and stays silent. -/
theorem woordle6_bonus_cex :
    gameRule ⟨"Woordle6", false⟩ ("Woordle6 10 6/6*\n" : String).data = none ∧
    matchFirst VALID_GAMES ("Woordle6 10 6/6*\n" : String).data = none ∧
    echo 0 [] ⟨"Woordle6 10 6/6*\n", 1, "Piet", 2⟩ = ([], none) := by
  exact ⟨by decide, by decide, by rfl⟩

/-- C4 (amended): `"Woordle6 10 6/6*\n"` is not matched by the `Woordle`
rule, but — the bonus marker being accepted only by the `Wordle` pattern —
it is matched by no rule and ignored; without the bonus marker,
`"Woordle6 10 6/6\n"` is matched by neither the `Wordle` nor the `Woordle`
rule, resolves only against the `Woordle6` rule, and the stored Submission
has game = `"Woordle6"`. -/
theorem woordle6_resolution_amended :
    gameRule ⟨"Woordle", false⟩ ("Woordle6 10 6/6*\n" : String).data = none ∧
    matchFirst VALID_GAMES ("Woordle6 10 6/6*\n" : String).data = none ∧
    gameRule ⟨"Wordle", true⟩ ("Woordle6 10 6/6\n" : String).data = none ∧
    gameRule ⟨"Woordle", false⟩ ("Woordle6 10 6/6\n" : String).data = none ∧
    matchFirst VALID_GAMES ("Woordle6 10 6/6\n" : String).data =
      some ("Woordle6", ⟨[ '1', '0' ], [ '6' ]⟩) ∧
    (echo 0 [] ⟨"Woordle6 10 6/6\n", 1, "Piet", 2⟩).1 =
      [{ game := "Woordle6", run := 10, player := 1, score := 1, chat := 2 }] := by
  exact ⟨by decide, by decide, by decide, by decide, by decide, by rfl⟩

/-! ## The duplicate branch of the handler -/

/-- C5 counterexample: resubmitting `"Wordle 512 1/6\n"` over a stored
score-4 row replies with the actual duplicate text of the source,
`"Sorry, but you've already submitted a score for Wordle 512\."`, which is
not the claimed exact text `"already submitted for Wordle 512"`. -/
theorem duplicate_reply_text_cex :
    echo 0 [{ game := "Wordle", run := 512, player := 1, score := 4, chat := 1 }]
        ⟨"Wordle 512 1/6\n", 1, "Piet", 1⟩ =
      ([{ game := "Wordle", run := 512, player := 1, score := 4, chat := 1 }],
        some "Sorry, but you\x27ve already submitted a score for Wordle 512\\.") ∧
    "Sorry, but you\x27ve already submitted a score for Wordle 512\\." ≠
      "already submitted for Wordle 512" := by
  exact ⟨by rfl, by decide⟩

/-- C5 (amended): when the insert is rejected as a duplicate for a given
game and run, the handler replies with exactly the text `"Sorry, but
you've already submitted a score for {game} {run}\."`, creates no new
Submission and changes no stored row, and performs no reaction selection —
the outcome is independent of the random draw. -/
theorem duplicate_reply_amended (pick pick2 : Nat) (store : List Score) (msg : Msg)
    (name : String) (m : RawMatch)
    (hm : matchFirst VALID_GAMES msg.text.data = some (name, m))
    (hd : store.any (keyMatches name (digitsToNat m.run) msg.fromUserId msg.chatId) =
      true) :
    echo pick store msg = (store, some (duplicateReply name (digitsToNat m.run))) ∧
    echo pick store msg = echo pick2 store msg := by
  have hr : record store name (digitsToNat m.run) msg.fromUserId msg.chatId
      (normScore m.score) = (store, false) := by
    unfold record
    rw [if_pos hd]
  refine ⟨?_, ?_⟩ <;> simp only [echo, hm, hr]

/-- C5 witness: the duplicate branch at the concrete resubmission
`"Wordle 512 1/6\n"` over a stored score-4 row. -/
theorem duplicate_reply_amended_witness :
    matchFirst VALID_GAMES ("Wordle 512 1/6\n" : String).data =
      some ("Wordle", ⟨[ '5', '1', '2' ], [ '1' ]⟩) ∧
    echo 0 [{ game := "Wordle", run := 512, player := 1, score := 4, chat := 1 }]
        ⟨"Wordle 512 1/6\n", 1, "Piet", 1⟩ =
      ([{ game := "Wordle", run := 512, player := 1, score := 4, chat := 1 }],
        some (duplicateReply "Wordle" (digitsToNat [ '5', '1', '2' ]))) :=
  ⟨by decide,
    (duplicate_reply_amended 0 1 _ ⟨"Wordle 512 1/6\n", 1, "Piet", 1⟩ "Wordle"
      ⟨[ '5', '1', '2' ], [ '1' ]⟩ (by decide) (by decide)).1⟩

/-! ## Ignored messages -/

/-- C8: a message matching none of the registered recognition rules
produces no reply and leaves the store completely unchanged. -/
theorem echo_no_match_no_effect (pick : Nat) (store : List Score) (msg : Msg)
    (h : matchFirst VALID_GAMES msg.text.data = none) :
    echo pick store msg = (store, none) := by
  simp only [echo, h]

/-- C8 witness: the message `"hello there"` matches no rule and is
ignored. -/
theorem echo_no_match_no_effect_witness :
    matchFirst VALID_GAMES ("hello there" : String).data = none ∧
    echo 0 [] ⟨"hello there", 1, "Piet", 2⟩ = ([], none) :=
  ⟨by decide, echo_no_match_no_effect 0 [] ⟨"hello there", 1, "Piet", 2⟩ (by decide)⟩

/-! ## Leading zeros in the run token -/

/-- C10: the run is stored as the integer value of its digit string —
leading zeros do not change it — so `"Wordle 007 3/6\n"` stores run 7 and
the later `"Wordle 7 5/6\n"` from the same player and chat is rejected as a
duplicate, leaving the single stored row unchanged. -/
theorem leading_zeros_same_run :
    (∀ cs : List Char, digitsToNat ( '0' :: cs) = digitsToNat cs) ∧
    (echo 0 [] ⟨"Wordle 007 3/6\n", 5, "Ann", 9⟩).1 =
      [{ game := "Wordle", run := 7, player := 5, score := 4, chat := 9 }] ∧
    echo 1 [{ game := "Wordle", run := 7, player := 5, score := 4, chat := 9 }]
        ⟨"Wordle 7 5/6\n", 5, "Ann", 9⟩ =
      ([{ game := "Wordle", run := 7, player := 5, score := 4, chat := 9 }],
        some (duplicateReply "Wordle" 7)) := by
  refine ⟨?_, by rfl, by rfl⟩
  intro cs
  show List.foldl _ (0 * 10 + ( '0'.toNat - '0'.toNat)) cs = List.foldl _ 0 cs
  norm_num

/-! ## The reaction selector -/

theorem mem_of_getQ {α : Type} : ∀ (l : List α) (n : Nat) (a : α),
    l.get? n = some a → a ∈ l
  | [], _, _ => by intro h; cases h
  | x :: xs, 0, a => by intro h; cases h; exact List.mem_cons_self _ _
  | x :: xs, n + 1, a => by
    intro h
    exact List.mem_cons_of_mem _ (mem_of_getQ xs n a h)

/-- C7: for every normalized score in `[0, 6]` the candidate list of
templates whose inclusive range contains the score is non-empty (the
catch-all `(0, 100000)` template always qualifies), and every template the
selector can return — under any random draw — is a registered template
whose range contains the score. -/
theorem select_reaction_sound (s : Int) (h0 : 0 ≤ s) (h6 : s ≤ 6) :
    candidates s ≠ [] ∧
    ∀ (pick : Nat) (t : String), select_reaction pick s = some t →
      ∃ r ∈ REACTIONS, r.text = t ∧ r.lo ≤ s ∧ s ≤ r.hi := by
  constructor
  · have hmem : (⟨0, 100000,
        "Awarding {score} points to {player} for {game} {run}\\."⟩ : Reaction) ∈
        candidates s := by
      apply List.mem_filter.mpr
      refine ⟨by simp [REACTIONS], ?_⟩
      simp only [Bool.and_eq_true, decide_eq_true_eq]
      omega
    exact List.ne_nil_of_mem hmem
  · intro pick t ht
    simp only [select_reaction] at ht
    have hmem : t ∈ (candidates s).map Reaction.text := mem_of_getQ _ _ _ ht
    rcases List.mem_map.mp hmem with ⟨r, hr, hrt⟩
    have hr' := List.mem_filter.mp hr
    have hb := hr'.2
    simp only [Bool.and_eq_true, decide_eq_true_eq] at hb
    exact ⟨r, hr'.1, hrt, hb.1, hb.2⟩

/-- C7 witness at score 6: the candidate set is non-empty. -/
theorem select_reaction_sound_witness :
    (0 : Int) ≤ 6 ∧ (6 : Int) ≤ 6 ∧ candidates 6 ≠ [] :=
  ⟨by decide, by decide, (select_reaction_sound 6 (by decide) (by decide)).1⟩

/-! ## Recognition requires the trailing newline -/

theorem mem_of_suffix {a : Char} {l1 l2 : List Char} (h : l1 <:+ l2) (hm : a ∈ l1) :
    a ∈ l2 := by
  rcases h with ⟨t, rfl⟩
  exact List.mem_append.mpr (Or.inr hm)

theorem dropLit_suffix : ∀ (l cs cs' : List Char), dropLit l cs = some cs' → cs' <:+ cs
  | [], cs, cs' => by
    intro h
    cases h
    exact List.suffix_refl _
  | a :: ls, [], cs' => by
    intro h
    cases h
  | a :: ls, c :: cs, cs' => by
    intro h
    by_cases hc : c = a
    · simp only [dropLit, if_pos hc] at h
      exact (dropLit_suffix ls cs cs' h).trans (List.suffix_cons c cs)
    · simp only [dropLit, if_neg hc] at h
      exact Option.noConfusion h

theorem takeDigits_suffix (cs ds rest : List Char) (h : takeDigits cs = some (ds, rest)) :
    rest <:+ cs := by
  simp only [takeDigits] at h
  split at h
  · cases h
  · have h2 := Option.some.inj h
    have h3 : rest = cs.drop (cs.takeWhile Char.isDigit).length :=
      ((Prod.mk.injEq _ _ _ _).mp h2).2.symm
    rw [h3]
    exact List.drop_suffix _ _

theorem takeTok_suffix (cs tok rest : List Char) (h : takeTok cs = some (tok, rest)) :
    rest <:+ cs := by
  unfold takeTok at h
  split at h
  · have h2 := Option.some.inj h
    have h3 := ((Prod.mk.injEq _ _ _ _).mp h2).2
    rw [← h3]
    exact List.suffix_cons _ _
  · exact takeDigits_suffix cs tok rest h

theorem dropStar_suffix (cs : List Char) : dropStar cs <:+ cs := by
  unfold dropStar
  split
  · exact List.suffix_cons _ _
  · exact List.suffix_refl _

theorem dropLit_head_mem (a : Char) (ls cs r : List Char)
    (h : dropLit (a :: ls) cs = some r) : a ∈ cs := by
  cases cs with
  | nil => simp [dropLit] at h
  | cons c tl =>
    by_cases hc : c = a
    · rw [← hc]
      exact List.mem_cons_self c tl
    · simp only [dropLit, if_neg hc] at h
      exact Option.noConfusion h

theorem matchTail_newline (b : Bool) (cs : List Char) (m : RawMatch)
    (h : matchTail b cs = some m) : '\n' ∈ cs := by
  simp only [matchTail, Option.bind_eq_some, Option.map_eq_some'] at h
  obtain ⟨rd, h1, cs2, h2, tk, h3, cs4, h4, rest, h5, _⟩ := h
  have s1 : rd.2 <:+ cs := takeDigits_suffix cs rd.1 rd.2 (by rw [h1])
  have s2 : cs2 <:+ rd.2 := dropLit_suffix _ _ _ h2
  have s3 : tk.2 <:+ cs2 := takeTok_suffix cs2 tk.1 tk.2 (by rw [h3])
  have s4 : cs4 <:+ tk.2 := dropLit_suffix _ _ _ h4
  have hm5 : '\n' ∈ (if b then dropStar cs4 else cs4) := dropLit_head_mem _ _ _ _ h5
  have s5 : (if b then dropStar cs4 else cs4) <:+ cs4 := by
    split
    · exact dropStar_suffix cs4
    · exact List.suffix_refl _
  exact mem_of_suffix s1 (mem_of_suffix s2 (mem_of_suffix s3 (mem_of_suffix s4
    (mem_of_suffix s5 hm5))))

theorem gameRule_newline (g : GameRule) (text : List Char) (m : RawMatch)
    (h : gameRule g text = some m) : '\n' ∈ text := by
  unfold gameRule at h
  cases hd : dropLit (g.name.data ++ [ ' ' ]) text with
  | none => rw [hd] at h; cases h
  | some cs =>
    rw [hd] at h
    exact mem_of_suffix (dropLit_suffix _ _ _ hd) (matchTail_newline g.allowBonus cs m h)

theorem matchFirst_newline : ∀ (gs : List GameRule) (text : List Char)
    (r : String × RawMatch), matchFirst gs text = some r → '\n' ∈ text
  | [], _, _ => by
    intro h
    cases h
  | g :: gs, text, r => by
    intro h
    unfold matchFirst at h
    cases hg : gameRule g text with
    | some m => exact gameRule_newline g text m hg
    | none =>
      rw [hg] at h
      exact matchFirst_newline gs text r h

/-- C9: every successful recognition requires a literal newline in the
message text; in particular the otherwise well-formed header
`"Wordle 512 3/6"` with no trailing newline matches no rule, and the
handler ignores it — no reply and no change to the store. -/
theorem match_requires_newline :
    (∀ (text : List Char) (r : String × RawMatch),
      matchFirst VALID_GAMES text = some r → '\n' ∈ text) ∧
    matchFirst VALID_GAMES ("Wordle 512 3/6" : String).data = none ∧
    (∀ (pick : Nat) (store : List Score),
      echo pick store ⟨"Wordle 512 3/6", 1, "Piet", 2⟩ = (store, none)) := by
  refine ⟨fun text r h => matchFirst_newline VALID_GAMES text r h, by decide, ?_⟩
  intro pick store
  have h : matchFirst VALID_GAMES (Msg.text ⟨"Wordle 512 3/6", 1, "Piet", 2⟩).data =
      none := by decide
  simp only [echo, h]

/-- C9 witness: the message with the trailing newline is recognized, and by
the theorem its text indeed contains a newline character. -/
theorem match_requires_newline_witness :
    matchFirst VALID_GAMES ("Wordle 512 3/6\n" : String).data =
      some ("Wordle", ⟨[ '5', '1', '2' ], [ '3' ]⟩) ∧
    '\n' ∈ ("Wordle 512 3/6\n" : String).data :=
  ⟨by decide, match_requires_newline.1 ("Wordle 512 3/6\n" : String).data
    ("Wordle", ⟨[ '5', '1', '2' ], [ '3' ]⟩) (by decide)⟩

/-! ## The leaderboard aggregation -/

theorem getT_nil (q : Int) : getT [] q = 0 := rfl

theorem getT_cons (a u q : Int) (rest : List (Int × Int)) :
    getT ((a, u) :: rest) q = (if a = q then u else 0) + getT rest q := by
  by_cases h : a = q
  · simp [getT, List.filter_cons, h]
  · simp [getT, List.filter_cons, h]

theorem getT_addScore (acc : List (Int × Int)) (p sc q : Int) :
    getT (addScore acc p sc) q = getT acc q + (if q = p then sc else 0) := by
  induction acc with
  | nil =>
    simp only [addScore, getT_cons, getT_nil]
    split_ifs <;> omega
  | cons e rest ih =>
    obtain ⟨a, t⟩ := e
    by_cases hap : a = p
    · subst hap
      have ha : addScore ((a, t) :: rest) a sc = (a, t + sc) :: rest := by
        simp [addScore]
      rw [ha, getT_cons, getT_cons]
      split_ifs <;> omega
    · have ha : addScore ((a, t) :: rest) p sc = (a, t) :: addScore rest p sc := by
        simp [addScore, hap]
      rw [ha, getT_cons, getT_cons, ih]
      split_ifs <;> omega

theorem specChatTotal_cons (s : Score) (rest : List Score) (c q : Int) :
    specChatTotal (s :: rest) c q =
      (if s.chat = c ∧ s.player = q then s.score else 0) + specChatTotal rest c q := by
  by_cases hc : s.chat = c
  · by_cases hp : s.player = q
    · simp [specChatTotal, List.filter_cons, hc, hp]
    · simp [specChatTotal, List.filter_cons, hc, hp]
  · simp [specChatTotal, List.filter_cons, hc, fun h : s.chat = c ∧ s.player = q => hc h.1]

theorem getT_totals_foldl (c q : Int) : ∀ (store : List Score) (acc : List (Int × Int)),
    getT (store.foldl
      (fun acc s => if s.chat == c then addScore acc s.player s.score else acc) acc) q =
    getT acc q + specChatTotal store c q
  | [], acc => by
    simp [specChatTotal, getT]
  | s :: rest, acc => by
    rw [List.foldl_cons, getT_totals_foldl c q rest, specChatTotal_cons]
    by_cases hc : s.chat = c
    · have hb : (s.chat == c) = true := by simp [hc]
      rw [if_pos hb, getT_addScore]
      by_cases hp : s.player = q
      · rw [if_pos hp.symm, if_pos (show s.chat = c ∧ s.player = q from ⟨hc, hp⟩)]
        omega
      · rw [if_neg (fun h : s.chat = c ∧ s.player = q => hp h.2),
          if_neg (fun h : q = s.player => hp h.symm)]
        omega
    · have hb : ¬ (s.chat == c) = true := by simp [hc]
      rw [if_neg hb, if_neg (fun h : s.chat = c ∧ s.player = q => hc h.1)]
      omega

theorem keys_addScore (acc : List (Int × Int)) (p sc : Int) :
    (addScore acc p sc).map Prod.fst =
      if p ∈ acc.map Prod.fst then acc.map Prod.fst else acc.map Prod.fst ++ [p] := by
  induction acc with
  | nil => simp [addScore]
  | cons e rest ih =>
    obtain ⟨a, t⟩ := e
    by_cases hap : a = p
    · simp [addScore, hap]
    · have hpa : ¬ p = a := fun h => hap h.symm
      have ha : addScore ((a, t) :: rest) p sc = (a, t) :: addScore rest p sc := by
        simp [addScore, hap]
      rw [ha]
      by_cases hmem : p ∈ rest.map Prod.fst
      · simp [List.mem_cons, ih, hmem, hpa]
      · simp [List.mem_cons, ih, hmem, hpa]

theorem nodup_addScore (acc : List (Int × Int)) (p sc : Int)
    (h : (acc.map Prod.fst).Nodup) : ((addScore acc p sc).map Prod.fst).Nodup := by
  rw [keys_addScore]
  by_cases hmem : p ∈ acc.map Prod.fst
  · simpa [hmem] using h
  · simp only [hmem, if_false]
    simp [List.nodup_append, h, hmem]

theorem nodup_totals_foldl (c : Int) : ∀ (store : List Score) (acc : List (Int × Int)),
    (acc.map Prod.fst).Nodup →
    ((store.foldl
      (fun acc s => if s.chat == c then addScore acc s.player s.score else acc) acc).map
        Prod.fst).Nodup
  | [], acc => fun h => h
  | s :: rest, acc => by
    intro h
    rw [List.foldl_cons]
    apply nodup_totals_foldl c rest
    by_cases hc : (s.chat == c) = true
    · rw [if_pos hc]
      exact nodup_addScore acc s.player s.score h
    · rw [if_neg hc]
      exact h

theorem getT_zero_of_not_mem (acc : List (Int × Int)) (p : Int)
    (h : p ∉ acc.map Prod.fst) : getT acc p = 0 := by
  induction acc with
  | nil => rfl
  | cons e rest ih =>
    obtain ⟨a, t⟩ := e
    simp only [List.map_cons, List.mem_cons] at h
    push_neg at h
    rw [getT_cons, if_neg (fun he : a = p => h.1 he.symm), ih h.2]
    omega

theorem getT_of_mem (acc : List (Int × Int)) (p t : Int)
    (hnd : (acc.map Prod.fst).Nodup) (hm : (p, t) ∈ acc) : getT acc p = t := by
  induction acc with
  | nil => cases hm
  | cons e rest ih =>
    obtain ⟨a, u⟩ := e
    simp only [List.map_cons, List.nodup_cons] at hnd
    rcases List.mem_cons.mp hm with h | h
    · have hap : a = p := (Prod.mk.inj h.symm).1
      have hut : u = t := (Prod.mk.inj h.symm).2
      rw [getT_cons, if_pos hap, hut, getT_zero_of_not_mem rest p (hap ▸ hnd.1)]
      omega
    · have hap : a ≠ p := by
        intro he
        apply hnd.1
        rw [he]
        exact List.mem_map.mpr ⟨(p, t), h, rfl⟩
      rw [getT_cons, if_neg hap, ih hnd.2 h]
      omega

/-- C6: every total the leaderboard aggregation reports for a player equals
the sum of the scores of that player's stored submissions within the given
chat, and a submission stored for a different chat never changes the
chat's totals. -/
theorem totalsByChat_correct :
    (∀ (store : List Score) (c p t : Int),
      (p, t) ∈ totalsByChat store c → t = specChatTotal store c p) ∧
    (∀ (store : List Score) (c : Int) (s : Score), s.chat ≠ c →
      totalsByChat (store ++ [s]) c = totalsByChat store c) := by
  constructor
  · intro store c p t hm
    have hnd : ((totalsByChat store c).map Prod.fst).Nodup :=
      nodup_totals_foldl c store [] (by simp)
    have h1 : getT (totalsByChat store c) p = t := getT_of_mem _ p t hnd hm
    have h2 := getT_totals_foldl c p store []
    rw [getT_nil] at h2
    rw [totalsByChat] at h1
    omega
  · intro store c s hs
    have hb : ¬ (s.chat == c) = true := by simp [hs]
    rw [totalsByChat, totalsByChat, List.foldl_append, List.foldl_cons, if_neg hb]
    rfl

/-- C6 witness: on a concrete store with two chats, the reported total 6
for player 1 in chat 1 equals the spec-level sum 4 + 2, and the chat-2
submission does not contribute. -/
theorem totalsByChat_correct_witness :
    ((1 : Int), (6 : Int)) ∈ totalsByChat
      [{ game := "Wordle", run := 1, player := 1, score := 4, chat := 1 },
       { game := "Wordle", run := 2, player := 1, score := 2, chat := 1 },
       { game := "Wordle", run := 1, player := 2, score := 6, chat := 2 }] 1 ∧
    (6 : Int) = specChatTotal
      [{ game := "Wordle", run := 1, player := 1, score := 4, chat := 1 },
       { game := "Wordle", run := 2, player := 1, score := 2, chat := 1 },
       { game := "Wordle", run := 1, player := 2, score := 6, chat := 2 }] 1 1 :=
  ⟨by decide, totalsByChat_correct.1
    [{ game := "Wordle", run := 1, player := 1, score := 4, chat := 1 },
     { game := "Wordle", run := 2, player := 1, score := 2, chat := 1 },
     { game := "Wordle", run := 1, player := 2, score := 6, chat := 2 }] 1 1 6 (by decide)⟩
